import Mathlib

/-! # Package identity resolution and provenance classification (`internal/imodels`)

A shallow embedding of `imodels.go`: the wrapper `PackageInfo` around an
extractor package record, its getters `Name`, `Ecosystem`, `Version`,
`SourceType`, `DepGroups`, `OSPackageName`, `Location`, `Commit`, and the
constructor `FromInventory`.

Go strings are embedded as Lean strings (sequences of Unicode scalar values;
strings that are not valid UTF-8 are outside the model), Go's `*big.Int`
version components as `Int`, nilable pointers and slices as `Option`.
Record and metadata pointers are taken to be non-nil, as every getter
dereferences them unconditionally.

Code that `imodels.go` calls but does not contain (the ecosystem parser, the
semver-like version parser, package-url derivation and parsing, the plugin name
constants) is gathered in the structure `Collaborators`; every function of the
embedding takes it as its first argument and the theorems hold for every value
of it.
-/

namespace osvschema

/-- Modelled from the spec: the Go ecosystem tag `osvschema.EcosystemGo`
(glossary: "a vulnerability-database-recognized package namespace (e.g., npm,
PyPI, Debian, Go)"). -/
def EcosystemGo : String := "Go"

/-- Modelled from the spec: the PyPI ecosystem tag `osvschema.EcosystemPyPI`
(same glossary entry). -/
def EcosystemPyPI : String := "PyPI"

end osvschema

namespace models

/-- Modelled from the spec: `models.SourceType`, the five source-type
categories and the distinct value "unknown". -/
inductive SourceType where
  | SourceTypeUnknown
  | SourceTypeOSPackage
  | SourceTypeProjectPackage
  | SourceTypeArtifact
  | SourceTypeSBOM
  | SourceTypeGit
  deriving DecidableEq, Repr

/-- Modelled from the spec: `models.PackageInfo`, of which `imodels.go` reads
the identity triple (name, version, ecosystem). -/
structure PackageInfo where
  Name : String
  Version : String
  Ecosystem : String
  deriving DecidableEq, Repr

end models

namespace ecosystem

/-- Modelled from the spec: `ecosystem.Parsed`, "a primary ecosystem tag plus
optional suffix/qualifier". -/
structure Parsed where
  Ecosystem : String
  Suffix : String
  deriving DecidableEq, Repr

end ecosystem

namespace semverlike

/-- Modelled from the spec: `semverlike.Components`, the parsed numeric
components of a version. -/
abbrev Components := List Int

/-- Modelled from the spec: `Components.Fetch(n)`, the n-th parsed component
(`Version` renders "the two parsed components"); zero where there is none. -/
def Components.Fetch (components : Components) (n : Nat) : Int :=
  components.getD n 0

/-- Modelled from the spec: `semverlike.Version`, of which `imodels.go` reads
the component list. -/
structure Version where
  Components : Components
  deriving DecidableEq, Repr

end semverlike

namespace unicode

/-- A run of code points with a lower-case mapping: the code points `Lo`,
`Lo + Stride`, ..., `Hi` map to `Target`, `Target + Stride`, ... -/
structure CaseRange where
  Lo : Nat
  Hi : Nat
  Stride : Nat
  Target : Nat
  deriving DecidableEq, Repr

/-- The simple lower-case mappings of the Unicode Character Database (as of
Unicode 14.0) for the code points above ASCII, as runs. This is the content of
the lower-case column of Go's `unicode.CaseRanges`. -/
def lowerRanges : List CaseRange :=
  [
   CaseRange.mk 0x00C0 0x00D6 1 0x00E0, CaseRange.mk 0x00D8 0x00DE 1 0x00F8, CaseRange.mk 0x0100 0x012E 2 0x0101,
   CaseRange.mk 0x0130 0x0130 1 0x0069, CaseRange.mk 0x0132 0x0136 2 0x0133, CaseRange.mk 0x0139 0x0147 2 0x013A,
   CaseRange.mk 0x014A 0x0176 2 0x014B, CaseRange.mk 0x0178 0x0178 1 0x00FF, CaseRange.mk 0x0179 0x017D 2 0x017A,
   CaseRange.mk 0x0181 0x0181 1 0x0253, CaseRange.mk 0x0182 0x0184 2 0x0183, CaseRange.mk 0x0186 0x0186 1 0x0254,
   CaseRange.mk 0x0187 0x0187 1 0x0188, CaseRange.mk 0x0189 0x018A 1 0x0256, CaseRange.mk 0x018B 0x018B 1 0x018C,
   CaseRange.mk 0x018E 0x018E 1 0x01DD, CaseRange.mk 0x018F 0x018F 1 0x0259, CaseRange.mk 0x0190 0x0190 1 0x025B,
   CaseRange.mk 0x0191 0x0191 1 0x0192, CaseRange.mk 0x0193 0x0193 1 0x0260, CaseRange.mk 0x0194 0x0194 1 0x0263,
   CaseRange.mk 0x0196 0x0196 1 0x0269, CaseRange.mk 0x0197 0x0197 1 0x0268, CaseRange.mk 0x0198 0x0198 1 0x0199,
   CaseRange.mk 0x019C 0x019C 1 0x026F, CaseRange.mk 0x019D 0x019D 1 0x0272, CaseRange.mk 0x019F 0x019F 1 0x0275,
   CaseRange.mk 0x01A0 0x01A4 2 0x01A1, CaseRange.mk 0x01A6 0x01A6 1 0x0280, CaseRange.mk 0x01A7 0x01A7 1 0x01A8,
   CaseRange.mk 0x01A9 0x01A9 1 0x0283, CaseRange.mk 0x01AC 0x01AC 1 0x01AD, CaseRange.mk 0x01AE 0x01AE 1 0x0288,
   CaseRange.mk 0x01AF 0x01AF 1 0x01B0, CaseRange.mk 0x01B1 0x01B2 1 0x028A, CaseRange.mk 0x01B3 0x01B5 2 0x01B4,
   CaseRange.mk 0x01B7 0x01B7 1 0x0292, CaseRange.mk 0x01B8 0x01B8 1 0x01B9, CaseRange.mk 0x01BC 0x01BC 1 0x01BD,
   CaseRange.mk 0x01C4 0x01C4 1 0x01C6, CaseRange.mk 0x01C5 0x01C5 1 0x01C6, CaseRange.mk 0x01C7 0x01C7 1 0x01C9,
   CaseRange.mk 0x01C8 0x01C8 1 0x01C9, CaseRange.mk 0x01CA 0x01CA 1 0x01CC, CaseRange.mk 0x01CB 0x01DB 2 0x01CC,
   CaseRange.mk 0x01DE 0x01EE 2 0x01DF, CaseRange.mk 0x01F1 0x01F1 1 0x01F3, CaseRange.mk 0x01F2 0x01F4 2 0x01F3,
   CaseRange.mk 0x01F6 0x01F6 1 0x0195, CaseRange.mk 0x01F7 0x01F7 1 0x01BF, CaseRange.mk 0x01F8 0x021E 2 0x01F9,
   CaseRange.mk 0x0220 0x0220 1 0x019E, CaseRange.mk 0x0222 0x0232 2 0x0223, CaseRange.mk 0x023A 0x023A 1 0x2C65,
   CaseRange.mk 0x023B 0x023B 1 0x023C, CaseRange.mk 0x023D 0x023D 1 0x019A, CaseRange.mk 0x023E 0x023E 1 0x2C66,
   CaseRange.mk 0x0241 0x0241 1 0x0242, CaseRange.mk 0x0243 0x0243 1 0x0180, CaseRange.mk 0x0244 0x0244 1 0x0289,
   CaseRange.mk 0x0245 0x0245 1 0x028C, CaseRange.mk 0x0246 0x024E 2 0x0247, CaseRange.mk 0x0370 0x0372 2 0x0371,
   CaseRange.mk 0x0376 0x0376 1 0x0377, CaseRange.mk 0x037F 0x037F 1 0x03F3, CaseRange.mk 0x0386 0x0386 1 0x03AC,
   CaseRange.mk 0x0388 0x038A 1 0x03AD, CaseRange.mk 0x038C 0x038C 1 0x03CC, CaseRange.mk 0x038E 0x038F 1 0x03CD,
   CaseRange.mk 0x0391 0x03A1 1 0x03B1, CaseRange.mk 0x03A3 0x03AB 1 0x03C3, CaseRange.mk 0x03CF 0x03CF 1 0x03D7,
   CaseRange.mk 0x03D8 0x03EE 2 0x03D9, CaseRange.mk 0x03F4 0x03F4 1 0x03B8, CaseRange.mk 0x03F7 0x03F7 1 0x03F8,
   CaseRange.mk 0x03F9 0x03F9 1 0x03F2, CaseRange.mk 0x03FA 0x03FA 1 0x03FB, CaseRange.mk 0x03FD 0x03FF 1 0x037B,
   CaseRange.mk 0x0400 0x040F 1 0x0450, CaseRange.mk 0x0410 0x042F 1 0x0430, CaseRange.mk 0x0460 0x0480 2 0x0461,
   CaseRange.mk 0x048A 0x04BE 2 0x048B, CaseRange.mk 0x04C0 0x04C0 1 0x04CF, CaseRange.mk 0x04C1 0x04CD 2 0x04C2,
   CaseRange.mk 0x04D0 0x052E 2 0x04D1, CaseRange.mk 0x0531 0x0556 1 0x0561, CaseRange.mk 0x10A0 0x10C5 1 0x2D00,
   CaseRange.mk 0x10C7 0x10C7 1 0x2D27, CaseRange.mk 0x10CD 0x10CD 1 0x2D2D, CaseRange.mk 0x13A0 0x13EF 1 0xAB70,
   CaseRange.mk 0x13F0 0x13F5 1 0x13F8, CaseRange.mk 0x1C90 0x1CBA 1 0x10D0, CaseRange.mk 0x1CBD 0x1CBF 1 0x10FD,
   CaseRange.mk 0x1E00 0x1E94 2 0x1E01, CaseRange.mk 0x1E9E 0x1E9E 1 0x00DF, CaseRange.mk 0x1EA0 0x1EFE 2 0x1EA1,
   CaseRange.mk 0x1F08 0x1F0F 1 0x1F00, CaseRange.mk 0x1F18 0x1F1D 1 0x1F10, CaseRange.mk 0x1F28 0x1F2F 1 0x1F20,
   CaseRange.mk 0x1F38 0x1F3F 1 0x1F30, CaseRange.mk 0x1F48 0x1F4D 1 0x1F40, CaseRange.mk 0x1F59 0x1F5F 2 0x1F51,
   CaseRange.mk 0x1F68 0x1F6F 1 0x1F60, CaseRange.mk 0x1F88 0x1F8F 1 0x1F80, CaseRange.mk 0x1F98 0x1F9F 1 0x1F90,
   CaseRange.mk 0x1FA8 0x1FAF 1 0x1FA0, CaseRange.mk 0x1FB8 0x1FB9 1 0x1FB0, CaseRange.mk 0x1FBA 0x1FBB 1 0x1F70,
   CaseRange.mk 0x1FBC 0x1FBC 1 0x1FB3, CaseRange.mk 0x1FC8 0x1FCB 1 0x1F72, CaseRange.mk 0x1FCC 0x1FCC 1 0x1FC3,
   CaseRange.mk 0x1FD8 0x1FD9 1 0x1FD0, CaseRange.mk 0x1FDA 0x1FDB 1 0x1F76, CaseRange.mk 0x1FE8 0x1FE9 1 0x1FE0,
   CaseRange.mk 0x1FEA 0x1FEB 1 0x1F7A, CaseRange.mk 0x1FEC 0x1FEC 1 0x1FE5, CaseRange.mk 0x1FF8 0x1FF9 1 0x1F78,
   CaseRange.mk 0x1FFA 0x1FFB 1 0x1F7C, CaseRange.mk 0x1FFC 0x1FFC 1 0x1FF3, CaseRange.mk 0x2126 0x2126 1 0x03C9,
   CaseRange.mk 0x212A 0x212A 1 0x006B, CaseRange.mk 0x212B 0x212B 1 0x00E5, CaseRange.mk 0x2132 0x2132 1 0x214E,
   CaseRange.mk 0x2160 0x216F 1 0x2170, CaseRange.mk 0x2183 0x2183 1 0x2184, CaseRange.mk 0x24B6 0x24CF 1 0x24D0,
   CaseRange.mk 0x2C00 0x2C2F 1 0x2C30, CaseRange.mk 0x2C60 0x2C60 1 0x2C61, CaseRange.mk 0x2C62 0x2C62 1 0x026B,
   CaseRange.mk 0x2C63 0x2C63 1 0x1D7D, CaseRange.mk 0x2C64 0x2C64 1 0x027D, CaseRange.mk 0x2C67 0x2C6B 2 0x2C68,
   CaseRange.mk 0x2C6D 0x2C6D 1 0x0251, CaseRange.mk 0x2C6E 0x2C6E 1 0x0271, CaseRange.mk 0x2C6F 0x2C6F 1 0x0250,
   CaseRange.mk 0x2C70 0x2C70 1 0x0252, CaseRange.mk 0x2C72 0x2C72 1 0x2C73, CaseRange.mk 0x2C75 0x2C75 1 0x2C76,
   CaseRange.mk 0x2C7E 0x2C7F 1 0x023F, CaseRange.mk 0x2C80 0x2CE2 2 0x2C81, CaseRange.mk 0x2CEB 0x2CED 2 0x2CEC,
   CaseRange.mk 0x2CF2 0x2CF2 1 0x2CF3, CaseRange.mk 0xA640 0xA66C 2 0xA641, CaseRange.mk 0xA680 0xA69A 2 0xA681,
   CaseRange.mk 0xA722 0xA72E 2 0xA723, CaseRange.mk 0xA732 0xA76E 2 0xA733, CaseRange.mk 0xA779 0xA77B 2 0xA77A,
   CaseRange.mk 0xA77D 0xA77D 1 0x1D79, CaseRange.mk 0xA77E 0xA786 2 0xA77F, CaseRange.mk 0xA78B 0xA78B 1 0xA78C,
   CaseRange.mk 0xA78D 0xA78D 1 0x0265, CaseRange.mk 0xA790 0xA792 2 0xA791, CaseRange.mk 0xA796 0xA7A8 2 0xA797,
   CaseRange.mk 0xA7AA 0xA7AA 1 0x0266, CaseRange.mk 0xA7AB 0xA7AB 1 0x025C, CaseRange.mk 0xA7AC 0xA7AC 1 0x0261,
   CaseRange.mk 0xA7AD 0xA7AD 1 0x026C, CaseRange.mk 0xA7AE 0xA7AE 1 0x026A, CaseRange.mk 0xA7B0 0xA7B0 1 0x029E,
   CaseRange.mk 0xA7B1 0xA7B1 1 0x0287, CaseRange.mk 0xA7B2 0xA7B2 1 0x029D, CaseRange.mk 0xA7B3 0xA7B3 1 0xAB53,
   CaseRange.mk 0xA7B4 0xA7C2 2 0xA7B5, CaseRange.mk 0xA7C4 0xA7C4 1 0xA794, CaseRange.mk 0xA7C5 0xA7C5 1 0x0282,
   CaseRange.mk 0xA7C6 0xA7C6 1 0x1D8E, CaseRange.mk 0xA7C7 0xA7C9 2 0xA7C8, CaseRange.mk 0xA7D0 0xA7D0 1 0xA7D1,
   CaseRange.mk 0xA7D6 0xA7D8 2 0xA7D7, CaseRange.mk 0xA7F5 0xA7F5 1 0xA7F6, CaseRange.mk 0xFF21 0xFF3A 1 0xFF41,
   CaseRange.mk 0x10400 0x10427 1 0x10428, CaseRange.mk 0x104B0 0x104D3 1 0x104D8, CaseRange.mk 0x10570 0x1057A 1 0x10597,
   CaseRange.mk 0x1057C 0x1058A 1 0x105A3, CaseRange.mk 0x1058C 0x10592 1 0x105B3, CaseRange.mk 0x10594 0x10595 1 0x105BB,
   CaseRange.mk 0x10C80 0x10CB2 1 0x10CC0, CaseRange.mk 0x118A0 0x118BF 1 0x118C0, CaseRange.mk 0x16E40 0x16E5F 1 0x16E60,
   CaseRange.mk 0x1E900 0x1E921 1 0x1E922
  ]

def CaseRange.covers (e : CaseRange) (r : Nat) : Bool :=
  decide (e.Lo ≤ r) && decide (r ≤ e.Hi) && decide ((r - e.Lo) % e.Stride = 0)

/-- Lower-case mapping of a code point above ASCII (`unicode.To(LowerCase, r)`):
the mapped code point when a run covers it, the code point itself otherwise. -/
def toLowerTable (r : Nat) : Nat :=
  match lowerRanges.find? (fun e => e.covers r) with
  | some e => e.Target + (r - e.Lo)
  | none => r

def MaxASCII : Nat := 0x7F

/-- The Unicode scalar values: code points outside the surrogate block. -/
def validRune (n : Nat) : Bool :=
  decide (n < 0xD800) || (decide (0xDFFF < n) && decide (n < 0x110000))

/-- No image of the run `e` lies in the domain of the run `e2`: the image lies
below or above the domain, or both advance in steps of two with opposite
parity. -/
def CaseRange.avoids (e e2 : CaseRange) : Bool :=
  decide (e.Target + (e.Hi - e.Lo) < e2.Lo) || decide (e2.Hi < e.Target) ||
    ((e.Stride == 2 || e.Lo == e.Hi) && e2.Stride == 2 && (e.Target + e2.Lo) % 2 == 1)

/-- The images of the run `e` are scalar values from U+0060 upwards (so neither
an ASCII capital nor one of `-`, `_`, `.`) and none of them has a lower-case
mapping of its own. -/
def CaseRange.settled (e : CaseRange) : Bool :=
  decide (0x60 ≤ e.Target) && validRune e.Target && validRune (e.Target + (e.Hi - e.Lo)) &&
    (decide (e.Target + (e.Hi - e.Lo) < 0xD800) || decide (0xDFFF < e.Target)) &&
    lowerRanges.all e.avoids

/-- Function `unicode.ToLower` on code points. -/
def toLowerRune (r : Nat) : Nat :=
  if r ≤ MaxASCII then
    if 0x41 ≤ r ∧ r ≤ 0x5A then r + (0x61 - 0x41) else r
  else toLowerTable r

/-- Function `unicode.ToLower`. -/
def ToLower (r : Char) : Char :=
  Char.ofNat (toLowerRune r.toNat)

end unicode

namespace strings

/-- Function `strings.ToLower`: every character mapped to lower case. -/
def ToLower (s : String) : String :=
  ⟨s.data.map unicode.ToLower⟩

end strings

namespace purl

/-- A package-url (`purl.PackageURL`): type (the field `Type`), namespace,
name and version. -/
structure PackageURL where
  PurlType : String
  Namespace : String
  Name : String
  Version : String
  deriving DecidableEq, Repr

end purl

namespace extractor

/-- The metadata payload of a record: a value of one dynamic type. The shapes
that `imodels.go` type-asserts on are listed with the fields it reads; `depGroups`
stands for any other payload that implements the `DepGroups` capability (with
the slice its method returns, `none` being the nil slice), `sbom` for the
payload of the SPDX and CycloneDX extractors, which carries the package-url
found in the document (`none` being nil), `other` for any other payload and
`absent` for a nil metadata. -/
inductive Metadata where
  | absent
  | archive (ArtifactID GroupID : String)
  | dpkg (PackageName SourceName : String)
  | apk (PackageName OriginName : String)
  | rpm (PackageName : String)
  | depGroups (groups : Option (List String))
  | sbom (PURL : Option purl.PackageURL)
  | other
  deriving DecidableEq, Repr

/-- Source-code provenance of a record (`extractor.SourceCodeIdentifier`). -/
structure SourceCodeIdentifier where
  Repo : String
  Commit : String
  deriving DecidableEq, Repr

/-- The raw package record `extractor.Package`. `Ecosystem` holds the string
returned by the record's `Ecosystem()` method. -/
structure Package where
  Name : String
  Version : String
  Ecosystem : String
  Locations : List String
  SourceCode : Option SourceCodeIdentifier
  Metadata : Metadata
  Plugins : List String
  deriving DecidableEq, Repr

end extractor

namespace imodels

/-- Code used by `imodels.go` whose definition lies outside it. -/
structure Collaborators where
  /-- Constant `spdx.Name`. -/
  spdxName : String
  /-- Constant `cdx.Name`. -/
  cdxName : String
  /-- Constant `gitrepo.Name`. -/
  gitrepoName : String
  /-- Constant `dpkg.Name`. -/
  dpkgName : String
  /-- Constant `apk.Name`. -/
  apkName : String
  /-- Constant `rpm.Name`. -/
  rpmName : String
  /-- Constant `nodemodules.Name`. -/
  nodemodulesName : String
  /-- Constant `gobinary.Name`. -/
  gobinaryName : String
  /-- Constant `archive.Name`. -/
  archiveName : String
  /-- Constant `wheelegg.Name`. -/
  wheeleggName : String
  /-- Function `ecosystem.Parse`: the parsed ecosystem and the error, if any. -/
  ecosystemParse : String → ecosystem.Parsed × Option String
  /-- Function `semverlike.ParseSemverLikeVersion`. -/
  ParseSemverLikeVersion : String → Int → semverlike.Version
  /-- Function `converter.ToPURL` followed by `String()`: the package-url derived from a
  record in its string form, `none` when no package-url is derivable (nil). -/
  ToPURL : extractor.Package → Option String
  /-- Function `purl.ToPackage`: the parsed identity and the error, if any. -/
  ToPackage : String → models.PackageInfo × Option String

def sbomExtractors (E : Collaborators) : List String :=
  [E.spdxName, E.cdxName]

def gitExtractors (E : Collaborators) : List String :=
  [E.gitrepoName]

def osExtractors (E : Collaborators) : List String :=
  [E.dpkgName, E.apkName, E.rpmName]

def artifactExtractors (E : Collaborators) : List String :=
  [E.nodemodulesName, E.gobinaryName, E.archiveName, E.wheeleggName]

/-- The wrapper `imodels.PackageInfo`: the record and the optional purl cache. -/
structure PackageInfo where
  Package : extractor.Package
  purlCache : Option models.PackageInfo
  deriving DecidableEq, Repr

/-- Membership in the character class `[-_.]`. -/
def isSeparator (c : Char) : Bool :=
  c == '-' || c == '_' || c == '.'

/-- The replacement `ReplaceAllLiteralString(s, "-")` for the pattern `[-_.]+`
on the characters of `s`: every maximal run of separator characters becomes a
single `-`. The flag tells whether the previous character was part of the run
being replaced. -/
def replaceSeparatorRuns : Bool → List Char → List Char
  | _, [] => []
  | inRun, c :: cs =>
    if isSeparator c then
      if inRun then replaceSeparatorRuns true cs
      else '-' :: replaceSeparatorRuns true cs
    else c :: replaceSeparatorRuns false cs

/-- Two adjacent characters are not both `-`. -/
abbrev NoDashPair (a b : Char) : Prop := ¬ (a = '-' ∧ b = '-')

/-- The PEP 503 normalisation applied by `Name` to PyPI names:
`strings.ToLower` of the separator-run replacement. -/
def normalizePyPIName (name : String) : String :=
  strings.ToLower ⟨replaceSeparatorRuns false name.data⟩

def PackageInfo.Ecosystem (E : Collaborators) (pkg : PackageInfo) : ecosystem.Parsed :=
  let ecosystemStr :=
    match pkg.purlCache with
    | some cache => cache.Ecosystem
    | none => pkg.Package.Ecosystem
  (E.ecosystemParse ecosystemStr).1

def PackageInfo.Name (E : Collaborators) (pkg : PackageInfo) : String :=
  match pkg.purlCache with
  | some cache => cache.Name
  | none =>
    if (pkg.Ecosystem E).Ecosystem = osvschema.EcosystemGo ∧ pkg.Package.Name = "go" then
      "stdlib"
    else if (pkg.Ecosystem E).Ecosystem = osvschema.EcosystemPyPI then
      normalizePyPIName pkg.Package.Name
    else
      match pkg.Package.Metadata with
      | .archive ArtifactID GroupID =>
        if ArtifactID ≠ "" ∧ GroupID ≠ "" then GroupID ++ ":" ++ ArtifactID
        else pkg.Package.Name
      | .dpkg _ SourceName =>
        if SourceName ≠ "" then SourceName else pkg.Package.Name
      | .apk _ OriginName =>
        if OriginName ≠ "" then OriginName else pkg.Package.Name
      | _ => pkg.Package.Name

def PackageInfo.Version (E : Collaborators) (pkg : PackageInfo) : String :=
  match pkg.purlCache with
  | some cache => cache.Version
  | none =>
    if (pkg.Ecosystem E).Ecosystem = osvschema.EcosystemGo ∧ pkg.Name E = "stdlib" then
      let v := E.ParseSemverLikeVersion pkg.Package.Version 3
      if v.Components.length = 2 then
        toString (v.Components.Fetch 0) ++ "." ++ toString (v.Components.Fetch 1)
          ++ "." ++ toString (99 : Int)
      else pkg.Package.Version
    else pkg.Package.Version

def PackageInfo.Location (pkg : PackageInfo) : String :=
  match pkg.Package.Locations with
  | first :: _ => first
  | [] => ""

def PackageInfo.Commit (pkg : PackageInfo) : String :=
  match pkg.Package.SourceCode with
  | some sourceCode => sourceCode.Commit
  | none => ""

/-- The loop of `SourceType` over the plugin names. -/
def scanPlugins (E : Collaborators) : List String → models.SourceType
  | [] => .SourceTypeProjectPackage
  | extractorName :: rest =>
    if extractorName ∈ osExtractors E then .SourceTypeOSPackage
    else if extractorName ∈ sbomExtractors E then .SourceTypeSBOM
    else if extractorName ∈ gitExtractors E then .SourceTypeGit
    else if extractorName ∈ artifactExtractors E then .SourceTypeArtifact
    else scanPlugins E rest

def PackageInfo.SourceType (E : Collaborators) (pkg : PackageInfo) : models.SourceType :=
  if pkg.Package.Plugins.length = 0 then .SourceTypeUnknown
  else scanPlugins E pkg.Package.Plugins

/-- The getter `DepGroups`; the result is a Go slice, `none` being nil. -/
def PackageInfo.DepGroups (pkg : PackageInfo) : Option (List String) :=
  match pkg.Package.Metadata with
  | .depGroups groups => groups
  | _ => some []

def PackageInfo.OSPackageName (pkg : PackageInfo) : String :=
  match pkg.Package.Metadata with
  | .apk PackageName _ => PackageName
  | .dpkg PackageName _ => PackageName
  | .rpm PackageName => PackageName
  | _ => ""

def FromInventory (E : Collaborators) (inv : extractor.Package) : PackageInfo :=
  let pi : PackageInfo := { Package := inv, purlCache := none }
  if pi.SourceType E = .SourceTypeSBOM then
    match E.ToPURL pi.Package with
    | some purlString => { pi with purlCache := some (E.ToPackage purlString).1 }
    | none => pi
  else pi

/-! ### A concrete set of collaborators

The theorems below hold for every value of `Collaborators`. Concrete instances
of them are stated for the following set. -/

/-- The list split at the first occurrence of `sep` (Go's `strings.Cut`). -/
def cutAt (sep : Char) : List Char → List Char × List Char
  | [] => ([], [])
  | c :: cs => if c = sep then ([], cs) else (c :: (cutAt sep cs).1, (cutAt sep cs).2)

/-- An ecosystem parser: the tag before the first colon, the suffix after it. -/
def sampleEcosystemParse (str : String) : ecosystem.Parsed × Option String :=
  ({ Ecosystem := ⟨(cutAt ':' str.data).1⟩, Suffix := ⟨(cutAt ':' str.data).2⟩ }, none)

/-- The leading decimal numbers of a version, separated by dots; the first
character that is neither a digit nor a dot ends them. -/
def sampleComponents : Option Nat → List Char → List Int
  | some n, [] => [(n : Int)]
  | none, [] => []
  | current, c :: cs =>
    if c.isDigit then sampleComponents (some (current.getD 0 * 10 + (c.toNat - 48))) cs
    else
      let finished : List Int :=
        match current with
        | some n => [(n : Int)]
        | none => []
      if c = '.' then finished ++ sampleComponents none cs else finished

/-- A version parser: the leading numeric components, at most `maxComponents`
of them (all of them for a negative bound). -/
def sampleParseSemverLikeVersion (line : String) (maxComponents : Int) : semverlike.Version :=
  let components := sampleComponents none line.data
  { Components := if maxComponents < 0 then components else components.take maxComponents.toNat }

/-- The string form of a package-url: `pkg:<type>/<namespace>/<name>@<version>`,
without the namespace or the version where they are empty. -/
def samplePURLString (p : purl.PackageURL) : String :=
  "pkg:" ++ p.PurlType ++ "/" ++ (if p.Namespace = "" then "" else p.Namespace ++ "/") ++ p.Name
    ++ (if p.Version = "" then "" else "@" ++ p.Version)

/-- A package-url derivation: for a record with an SBOM payload the package-url
that the payload carries, as it is (none when it carries none); for any other
record `pkg:<ecosystem>/<name>@<version>`, and none when the record has no
ecosystem or no name to build it from. -/
def sampleToPURL (p : extractor.Package) : Option String :=
  match p.Metadata with
  | .sbom PURL => PURL.map samplePURLString
  | _ =>
    if p.Name = "" ∨ p.Ecosystem = "" then none
    else some ("pkg:" ++ p.Ecosystem ++ "/" ++ p.Name ++ "@" ++ p.Version)

/-- A package-url parser for `pkg:<type>/<name>@<version>`; a string without
the scheme, the type or the name is an error and gives the zero identity. -/
def sampleToPackage (purl : String) : models.PackageInfo × Option String :=
  match purl.data with
  | 'p' :: 'k' :: 'g' :: ':' :: rest =>
    if (cutAt '/' rest).1 = [] ∨ (cutAt '@' (cutAt '/' rest).2).1 = [] then
      ({ Name := "", Version := "", Ecosystem := "" }, some "purl is missing type or name")
    else
      ({ Name := ⟨(cutAt '@' (cutAt '/' rest).2).1⟩,
         Version := ⟨(cutAt '@' (cutAt '/' rest).2).2⟩,
         Ecosystem := ⟨(cutAt '/' rest).1⟩ }, none)
  | _ => ({ Name := "", Version := "", Ecosystem := "" }, some "purl scheme is not pkg")

def sampleCollaborators : Collaborators where
  spdxName := "sbom/spdx"
  cdxName := "sbom/cdx"
  gitrepoName := "vcs/gitrepo"
  dpkgName := "os/dpkg"
  apkName := "os/apk"
  rpmName := "os/rpm"
  nodemodulesName := "javascript/nodemodules"
  gobinaryName := "go/binary"
  archiveName := "java/archive"
  wheeleggName := "python/wheelegg"
  ecosystemParse := sampleEcosystemParse
  ParseSemverLikeVersion := sampleParseSemverLikeVersion
  ToPURL := sampleToPURL
  ToPackage := sampleToPackage

/-- A record with the given identity and plugins and nothing else. -/
def sampleRecord (name version eco : String) (plugins : List String) : extractor.Package :=
  { Name := name, Version := version, Ecosystem := eco, Locations := [],
    SourceCode := none, Metadata := .absent, Plugins := plugins }

/-- A record of the SPDX extractor whose SBOM payload carries a package-url
with a name and a version but no type, `pkg:/left-pad@1.3.0`. -/
def sbomLeftPad : extractor.Package :=
  { Name := "left-pad", Version := "1.3.0", Ecosystem := "", Locations := ["/app/bom.spdx.json"],
    SourceCode := none,
    Metadata := .sbom (some ⟨"", "", "left-pad", "1.3.0"⟩),
    Plugins := ["sbom/spdx"] }

end imodels

/-! # Theorems -/

/-! ## Lower-case mapping -/

namespace unicode

theorem lowerRanges_settled : lowerRanges.all CaseRange.settled = true := by decide!

theorem CaseRange.avoids_sound {e e2 : CaseRange} {r : Nat} (h : e.avoids e2 = true)
    (hc : e.covers r = true) : e2.covers (e.Target + (r - e.Lo)) = false := by
  simp only [CaseRange.avoids, CaseRange.covers, Bool.or_eq_true, Bool.and_eq_true,
    decide_eq_true_eq, beq_iff_eq] at h hc
  obtain ⟨⟨hlo, hhi⟩, hstep⟩ := hc
  have hcases : ¬ (e2.Lo ≤ e.Target + (r - e.Lo) ∧ e.Target + (r - e.Lo) ≤ e2.Hi ∧
      (e.Target + (r - e.Lo) - e2.Lo) % e2.Stride = 0) := by
    rintro ⟨h1, h2, h3⟩
    rcases h with (h | h) | ⟨⟨h4, h5⟩, h6⟩
    · omega
    · omega
    · rw [h5] at h3
      have hoff : (r - e.Lo) % 2 = 0 := by
        rcases h4 with h4 | h4
        · rw [h4] at hstep; exact hstep
        · have : r = e.Lo := by omega
          omega
      omega
  simp only [CaseRange.covers]
  by_contra hne
  apply hcases
  simp only [Bool.not_eq_false, Bool.and_eq_true, decide_eq_true_eq] at hne
  exact ⟨hne.1.1, hne.1.2, hne.2⟩

theorem toLowerTable_cases (n : Nat) :
    toLowerTable n = n ∨
      ∃ e ∈ lowerRanges, e.covers n = true ∧ toLowerTable n = e.Target + (n - e.Lo) := by
  unfold toLowerTable
  cases h : lowerRanges.find? (fun e => e.covers n) with
  | none => exact Or.inl rfl
  | some e =>
    have hp : e.covers n = true := @List.find?_some _ (fun e => e.covers n) e lowerRanges h
    exact Or.inr ⟨e, List.mem_of_find?_eq_some h, hp, rfl⟩

theorem toLowerTable_image {e : CaseRange} {n : Nat} (he : e ∈ lowerRanges)
    (hc : e.covers n = true) :
    0x60 ≤ e.Target + (n - e.Lo) ∧ validRune (e.Target + (n - e.Lo)) = true ∧
      toLowerTable (e.Target + (n - e.Lo)) = e.Target + (n - e.Lo) := by
  have hs : e.settled = true := (List.all_eq_true.mp lowerRanges_settled) e he
  have hc2 := hc
  simp only [CaseRange.settled, CaseRange.covers, validRune, Bool.or_eq_true, Bool.and_eq_true,
    decide_eq_true_eq] at hs hc2
  obtain ⟨⟨⟨⟨h60, hv1⟩, hv2⟩, hv3⟩, hav⟩ := hs
  obtain ⟨⟨hlo, hhi⟩, -⟩ := hc2
  refine ⟨by omega, ?_, ?_⟩
  · simp only [validRune, Bool.or_eq_true, Bool.and_eq_true, decide_eq_true_eq]
    omega
  · have hnone : lowerRanges.find? (fun e2 => e2.covers (e.Target + (n - e.Lo))) = none := by
      rw [List.find?_eq_none]
      intro e2 he2
      have := CaseRange.avoids_sound ((List.all_eq_true.mp hav) e2 he2) hc
      simp [this]
    unfold toLowerTable
    rw [hnone]

theorem toLowerRune_cases (n : Nat) :
    toLowerRune n = n ∨ (0x60 ≤ toLowerRune n ∧ validRune (toLowerRune n) = true ∧
      toLowerRune (toLowerRune n) = toLowerRune n) := by
  unfold toLowerRune
  by_cases hascii : n ≤ MaxASCII
  · rw [if_pos hascii]
    by_cases hup : 0x41 ≤ n ∧ n ≤ 0x5A
    · rw [if_pos hup]
      right
      refine ⟨by omega, ?_, ?_⟩
      · simp only [validRune, Bool.or_eq_true, Bool.and_eq_true, decide_eq_true_eq]
        omega
      · have h1 : n + (0x61 - 0x41) ≤ MaxASCII := by simp only [MaxASCII]; omega
        have h2 : ¬ (0x41 ≤ n + (0x61 - 0x41) ∧ n + (0x61 - 0x41) ≤ 0x5A) := by omega
        rw [if_pos h1, if_neg h2]
    · rw [if_neg hup]
      exact Or.inl rfl
  · rw [if_neg hascii]
    rcases toLowerTable_cases n with h | ⟨e, he, hc, h⟩
    · exact Or.inl h
    · right
      obtain ⟨h60, hv, hfix⟩ := toLowerTable_image he hc
      rw [h]
      refine ⟨h60, hv, ?_⟩
      by_cases hascii2 : e.Target + (n - e.Lo) ≤ MaxASCII
      · have h2 : ¬ (0x41 ≤ e.Target + (n - e.Lo) ∧ e.Target + (n - e.Lo) ≤ 0x5A) := by omega
        rw [if_pos hascii2, if_neg h2]
      · rw [if_neg hascii2, hfix]

theorem toLowerRune_idem (n : Nat) : toLowerRune (toLowerRune n) = toLowerRune n := by
  rcases toLowerRune_cases n with h | ⟨-, -, h⟩
  · rw [h, h]
  · exact h

theorem toNat_ofNat_of_valid {n : Nat} (h : validRune n = true) : (Char.ofNat n).toNat = n := by
  have hv : n.isValidChar := by
    simp only [validRune, Bool.or_eq_true, Bool.and_eq_true, decide_eq_true_eq] at h
    exact h
  simp only [Char.ofNat, dif_pos hv]
  rfl

theorem validRune_toNat (c : Char) : validRune c.toNat = true := by
  have h := c.valid
  simp only [validRune, Bool.or_eq_true, Bool.and_eq_true, decide_eq_true_eq]
  exact h

theorem ToLower_toNat (c : Char) : (ToLower c).toNat = toLowerRune c.toNat := by
  unfold ToLower
  rcases toLowerRune_cases c.toNat with h | ⟨-, hv, -⟩
  · rw [h, Char.ofNat_toNat]
  · exact toNat_ofNat_of_valid hv

theorem ToLower_idem (c : Char) : ToLower (ToLower c) = ToLower c := by
  have h : ToLower (ToLower c) = Char.ofNat (toLowerRune (ToLower c).toNat) := rfl
  rw [h, ToLower_toNat, toLowerRune_idem]
  rfl

/-- A character whose lower-case form lies below U+0060 is its own lower-case form. -/
theorem ToLower_eq_self_of_lt {c : Char} (h : (ToLower c).toNat < 0x60) : ToLower c = c := by
  rw [ToLower_toNat] at h
  rcases toLowerRune_cases c.toNat with h1 | ⟨h60, -, -⟩
  · unfold ToLower
    rw [h1, Char.ofNat_toNat]
  · omega

end unicode

/-! ## PyPI name normalisation -/

namespace imodels

theorem isSeparator_iff (c : Char) : isSeparator c = true ↔ c = '-' ∨ c = '_' ∨ c = '.' := by
  simp [isSeparator, or_assoc]

theorem ToLower_eq_dash {c : Char} (h : unicode.ToLower c = '-') : c = '-' := by
  have hlt : (unicode.ToLower c).toNat < 0x60 := by rw [h]; decide
  rw [← unicode.ToLower_eq_self_of_lt hlt, h]

theorem ToLower_eq_underscore {c : Char} (h : unicode.ToLower c = '_') : c = '_' := by
  have hlt : (unicode.ToLower c).toNat < 0x60 := by rw [h]; decide
  rw [← unicode.ToLower_eq_self_of_lt hlt, h]

theorem ToLower_eq_dot {c : Char} (h : unicode.ToLower c = '.') : c = '.' := by
  have hlt : (unicode.ToLower c).toNat < 0x60 := by rw [h]; decide
  rw [← unicode.ToLower_eq_self_of_lt hlt, h]

theorem strings_ToLower_idem (s : String) : strings.ToLower (strings.ToLower s) = strings.ToLower s := by
  simp only [strings.ToLower, List.map_map]
  congr 1
  apply List.map_congr_left
  intro c _
  exact unicode.ToLower_idem c

/-- The replacement leaves `-` as the only separator character. -/
theorem replaceSeparatorRuns_mem (inRun : Bool) (l : List Char) :
    ∀ c ∈ replaceSeparatorRuns inRun l, c ≠ '_' ∧ c ≠ '.' := by
  induction l generalizing inRun with
  | nil => intro c hc; simp [replaceSeparatorRuns] at hc
  | cons x xs ih =>
    intro c hc
    unfold replaceSeparatorRuns at hc
    by_cases hx : isSeparator x = true
    · rw [if_pos hx] at hc
      cases inRun with
      | true => exact ih true c (by simpa using hc)
      | false =>
        simp only [Bool.false_eq_true, if_false, List.mem_cons] at hc
        rcases hc with rfl | hc
        · exact ⟨by decide, by decide⟩
        · exact ih true c hc
    · rw [if_neg hx] at hc
      simp only [List.mem_cons] at hc
      rcases hc with rfl | hc
      · rw [isSeparator_iff] at hx
        exact ⟨fun h => hx (Or.inr (Or.inl h)), fun h => hx (Or.inr (Or.inr h))⟩
      · exact ih false c hc

/-- The replacement leaves no two adjacent `-`, and inside a run it does not
start with one. -/
theorem replaceSeparatorRuns_chain (inRun : Bool) (l : List Char) :
    List.Chain' NoDashPair (replaceSeparatorRuns inRun l) ∧
      (inRun = true → ∀ y ∈ (replaceSeparatorRuns inRun l).head?, y ≠ '-') := by
  induction l generalizing inRun with
  | nil => simp [replaceSeparatorRuns]
  | cons x xs ih =>
    unfold replaceSeparatorRuns
    by_cases hx : isSeparator x = true
    · rw [if_pos hx]
      cases inRun with
      | true =>
        simp only [if_true]
        exact ⟨(ih true).1, fun _ => (ih true).2 rfl⟩
      | false =>
        simp only [Bool.false_eq_true, if_false, false_implies, and_true]
        rw [List.chain'_cons']
        exact ⟨fun y hy h => (ih true).2 rfl y hy h.2, (ih true).1⟩
    · rw [if_neg hx]
      have hne : x ≠ '-' := fun h => hx ((isSeparator_iff x).mpr (Or.inl h))
      refine ⟨?_, fun _ y hy => ?_⟩
      · rw [List.chain'_cons']
        exact ⟨fun y _ h => hne h.1, (ih false).1⟩
      · simp only [List.head?_cons, Option.mem_def, Option.some.injEq] at hy
        rw [← hy]; exact hne

/-- The replacement changes nothing in a list whose only separator character is
`-`, never twice in a row (and not at the start when inside a run). -/
theorem replaceSeparatorRuns_fixed (inRun : Bool) (l : List Char)
    (hmem : ∀ c ∈ l, c ≠ '_' ∧ c ≠ '.') (hchain : List.Chain' NoDashPair l)
    (hhead : inRun = true → ∀ y ∈ l.head?, y ≠ '-') :
    replaceSeparatorRuns inRun l = l := by
  induction l generalizing inRun with
  | nil => simp [replaceSeparatorRuns]
  | cons x xs ih =>
    have hmem2 : ∀ c ∈ xs, c ≠ '_' ∧ c ≠ '.' := fun c hc => hmem c (List.mem_cons_of_mem x hc)
    rw [List.chain'_cons'] at hchain
    unfold replaceSeparatorRuns
    by_cases hx : isSeparator x = true
    · have hxd : x = '-' := by
        rcases (isSeparator_iff x).mp hx with h | h | h
        · exact h
        · exact absurd h (hmem x (List.mem_cons_self x xs)).1
        · exact absurd h (hmem x (List.mem_cons_self x xs)).2
      rw [if_pos hx]
      cases inRun with
      | true => exact absurd hxd (hhead rfl x (by simp))
      | false =>
        simp only [Bool.false_eq_true, if_false]
        rw [ih true hmem2 hchain.2 (fun _ y hy h => hchain.1 y hy ⟨hxd, h⟩), hxd]
    · rw [if_neg hx, ih false hmem2 hchain.2 (fun h => by simp at h)]

/-- Lower-casing keeps the shape that the replacement establishes. -/
theorem map_ToLower_shape (l : List Char) (hmem : ∀ c ∈ l, c ≠ '_' ∧ c ≠ '.')
    (hchain : List.Chain' NoDashPair l) :
    (∀ c ∈ l.map unicode.ToLower, c ≠ '_' ∧ c ≠ '.') ∧
      List.Chain' NoDashPair (l.map unicode.ToLower) := by
  constructor
  · intro c hc
    obtain ⟨d, hd, rfl⟩ := List.mem_map.mp hc
    exact ⟨fun h => (hmem d hd).1 (ToLower_eq_underscore h),
      fun h => (hmem d hd).2 (ToLower_eq_dot h)⟩
  · rw [List.chain'_map]
    exact hchain.imp (fun {a b} hab h => hab ⟨ToLower_eq_dash h.1, ToLower_eq_dash h.2⟩)

theorem normalizePyPIName_shape (name : String) :
    (∀ c ∈ (normalizePyPIName name).data, c ≠ '_' ∧ c ≠ '.') ∧
      List.Chain' NoDashPair (normalizePyPIName name).data :=
  map_ToLower_shape _ (replaceSeparatorRuns_mem false name.data)
    (replaceSeparatorRuns_chain false name.data).1

theorem normalizePyPIName_lower (name : String) :
    strings.ToLower (normalizePyPIName name) = normalizePyPIName name :=
  strings_ToLower_idem _

theorem normalizePyPIName_idem (name : String) :
    normalizePyPIName (normalizePyPIName name) = normalizePyPIName name := by
  obtain ⟨hmem, hchain⟩ := normalizePyPIName_shape name
  have hfix := replaceSeparatorRuns_fixed false _ hmem hchain (fun h => by simp at h)
  have h : normalizePyPIName (normalizePyPIName name) =
      strings.ToLower ⟨replaceSeparatorRuns false (normalizePyPIName name).data⟩ := rfl
  rw [h, hfix]
  exact normalizePyPIName_lower name

theorem not_dashPair_infix {l : List Char} (hchain : List.Chain' NoDashPair l) :
    ¬ ['-', '-'] <:+: l := by
  intro h
  have h2 : List.Chain' NoDashPair ['-', '-'] := hchain.infix h
  rw [List.chain'_cons] at h2
  exact h2.1 ⟨rfl, rfl⟩

/-! ## The getters and the constructor -/

open models

theorem Name_of_PyPI (E : Collaborators) (r : extractor.Package)
    (h : (PackageInfo.Ecosystem E ⟨r, none⟩).Ecosystem = osvschema.EcosystemPyPI) :
    PackageInfo.Name E ⟨r, none⟩ = normalizePyPIName r.Name := by
  have hne : ¬ ((PackageInfo.Ecosystem E ⟨r, none⟩).Ecosystem = osvschema.EcosystemGo ∧
      r.Name = "go") := by
    rw [h]
    intro h2
    exact absurd h2.1 (by decide)
  simp only [PackageInfo.Name]
  rw [if_neg hne, if_pos h]

theorem scanPlugins_os_first (E : Collaborators) (pre post : List String) (e : String)
    (he : e ∈ osExtractors E)
    (hpre : ∀ x ∈ pre, x ∈ osExtractors E ∨
      (x ∉ sbomExtractors E ∧ x ∉ gitExtractors E ∧ x ∉ artifactExtractors E)) :
    scanPlugins E (pre ++ e :: post) = .SourceTypeOSPackage := by
  induction pre with
  | nil => simp [scanPlugins, he]
  | cons x xs ih =>
    have hxs := ih (fun y hy => hpre y (List.mem_cons_of_mem x hy))
    rcases hpre x (List.mem_cons_self x xs) with hx | ⟨h1, h2, h3⟩
    · simp [scanPlugins, hx]
    · by_cases hx : x ∈ osExtractors E
      · simp [scanPlugins, hx]
      · simp only [List.cons_append, scanPlugins, if_neg hx, if_neg h1, if_neg h2, if_neg h3]
        exact hxs

/-- C1 (as amended): for every record classified as SBOM for which a
package-url is derivable, `FromInventory` stores the identity returned by the
package-url parser as the cache, whether or not the parser also reported an
error; `Name` and `Version` of the resolver are the name and version of that
identity. -/
theorem FromInventory_sbom_keeps_parsed (E : Collaborators) (r : extractor.Package)
    (purl : String)
    (hSBOM : PackageInfo.SourceType E ⟨r, none⟩ = SourceType.SourceTypeSBOM)
    (hPURL : E.ToPURL r = some purl) :
    FromInventory E r = ⟨r, some (E.ToPackage purl).1⟩ ∧
      (FromInventory E r).Name E = (E.ToPackage purl).1.Name ∧
      (FromInventory E r).Version E = (E.ToPackage purl).1.Version := by
  have h : FromInventory E r = ⟨r, some (E.ToPackage purl).1⟩ := by
    simp only [FromInventory]
    rw [if_pos hSBOM, hPURL]
  rw [h]
  exact ⟨rfl, rfl, rfl⟩

/-- C1, an instance of the amended statement where the parser reports an error:
the package-url that the SBOM payload of the record carries has no type, its
string form is `pkg:/left-pad@1.3.0`, and the zero identity returned along with
the error becomes the cache. -/
theorem FromInventory_sbom_keeps_parsed_witness :
    (sampleCollaborators.ToPackage "pkg:/left-pad@1.3.0").2 =
        some "purl is missing type or name" ∧
      (FromInventory sampleCollaborators sbomLeftPad =
        ⟨sbomLeftPad, some (sampleCollaborators.ToPackage "pkg:/left-pad@1.3.0").1⟩ ∧
      (FromInventory sampleCollaborators sbomLeftPad).Name sampleCollaborators =
        (sampleCollaborators.ToPackage "pkg:/left-pad@1.3.0").1.Name ∧
      (FromInventory sampleCollaborators sbomLeftPad).Version sampleCollaborators =
        (sampleCollaborators.ToPackage "pkg:/left-pad@1.3.0").1.Version) :=
  ⟨by decide,
    FromInventory_sbom_keeps_parsed sampleCollaborators sbomLeftPad "pkg:/left-pad@1.3.0"
      (by decide) (by decide)⟩

/-- C1 fails as stated: the record `sbomLeftPad` is classified as SBOM, the
package-url of its SBOM payload is derived from it, parsing that package-url
returns an error because it has no type, and yet the resolver has a cached
identity; `Name` returns the cached empty name, not the raw name `left-pad`
that the rules without a cache return. -/
theorem FromInventory_parse_error_counterexample :
    PackageInfo.SourceType sampleCollaborators ⟨sbomLeftPad, none⟩ =
        SourceType.SourceTypeSBOM ∧
      sampleCollaborators.ToPURL sbomLeftPad = some "pkg:/left-pad@1.3.0" ∧
      (sampleCollaborators.ToPackage "pkg:/left-pad@1.3.0").2 ≠ none ∧
      (FromInventory sampleCollaborators sbomLeftPad).purlCache ≠ none ∧
      (FromInventory sampleCollaborators sbomLeftPad).Name sampleCollaborators = "" ∧
      PackageInfo.Name sampleCollaborators ⟨sbomLeftPad, none⟩ = "left-pad" := by
  decide

/-- C2: with a cached identity present, `Name` is the cached name and `Version`
the cached version, whatever the underlying record and whatever the
collaborators: no patch rule applies. -/
theorem cache_wins (E : Collaborators) (r : extractor.Package) (cache : models.PackageInfo) :
    PackageInfo.Name E ⟨r, some cache⟩ = cache.Name ∧
      PackageInfo.Version E ⟨r, some cache⟩ = cache.Version :=
  ⟨rfl, rfl⟩

/-- C3: for a record without cache whose parsed ecosystem is PyPI, `Name` is
lower case (lower-casing it again changes nothing) and contains no `_`, no `.`
and no two consecutive `-`. -/
theorem Name_PyPI_normalized (E : Collaborators) (r : extractor.Package)
    (hPyPI : (PackageInfo.Ecosystem E ⟨r, none⟩).Ecosystem = osvschema.EcosystemPyPI) :
    strings.ToLower (PackageInfo.Name E ⟨r, none⟩) = PackageInfo.Name E ⟨r, none⟩ ∧
      '_' ∉ (PackageInfo.Name E ⟨r, none⟩).data ∧
      '.' ∉ (PackageInfo.Name E ⟨r, none⟩).data ∧
      ¬ ['-', '-'] <:+: (PackageInfo.Name E ⟨r, none⟩).data := by
  rw [Name_of_PyPI E r hPyPI]
  obtain ⟨hmem, hchain⟩ := normalizePyPIName_shape r.Name
  exact ⟨normalizePyPIName_lower r.Name, fun h => (hmem _ h).1 rfl, fun h => (hmem _ h).2 rfl,
    not_dashPair_infix hchain⟩

/-- C3 at the PyPI record named `Foo__Bar.-_baz`. -/
theorem Name_PyPI_normalized_witness :
    strings.ToLower (PackageInfo.Name sampleCollaborators
        ⟨sampleRecord "Foo__Bar.-_baz" "1.0" "PyPI" ["python/requirements"], none⟩) =
        PackageInfo.Name sampleCollaborators
          ⟨sampleRecord "Foo__Bar.-_baz" "1.0" "PyPI" ["python/requirements"], none⟩ ∧
      '_' ∉ (PackageInfo.Name sampleCollaborators
        ⟨sampleRecord "Foo__Bar.-_baz" "1.0" "PyPI" ["python/requirements"], none⟩).data ∧
      '.' ∉ (PackageInfo.Name sampleCollaborators
        ⟨sampleRecord "Foo__Bar.-_baz" "1.0" "PyPI" ["python/requirements"], none⟩).data ∧
      ¬ ['-', '-'] <:+: (PackageInfo.Name sampleCollaborators
        ⟨sampleRecord "Foo__Bar.-_baz" "1.0" "PyPI" ["python/requirements"], none⟩).data :=
  Name_PyPI_normalized sampleCollaborators
    (sampleRecord "Foo__Bar.-_baz" "1.0" "PyPI" ["python/requirements"]) (by decide)

/-- C4: the PyPI normalisation of `Name` is idempotent: a PyPI record named
after the `Name` of a PyPI record has that same `Name`. -/
theorem Name_PyPI_idempotent (E : Collaborators) (r₁ r₂ : extractor.Package)
    (h₁ : (PackageInfo.Ecosystem E ⟨r₁, none⟩).Ecosystem = osvschema.EcosystemPyPI)
    (h₂ : (PackageInfo.Ecosystem E ⟨r₂, none⟩).Ecosystem = osvschema.EcosystemPyPI)
    (hname : r₂.Name = PackageInfo.Name E ⟨r₁, none⟩) :
    PackageInfo.Name E ⟨r₂, none⟩ = PackageInfo.Name E ⟨r₁, none⟩ := by
  rw [Name_of_PyPI E r₂ h₂, hname, Name_of_PyPI E r₁ h₁]
  exact normalizePyPIName_idem r₁.Name

/-- C4 at the PyPI record named `Foo__Bar.-_baz` and a second one named after its `Name`, `foo-bar-baz`. -/
theorem Name_PyPI_idempotent_witness :
    PackageInfo.Name sampleCollaborators
        ⟨sampleRecord "foo-bar-baz" "2.0" "PyPI" ["python/wheelegg"], none⟩ =
      PackageInfo.Name sampleCollaborators
        ⟨sampleRecord "Foo__Bar.-_baz" "1.0" "PyPI" ["python/requirements"], none⟩ :=
  Name_PyPI_idempotent sampleCollaborators
    (sampleRecord "Foo__Bar.-_baz" "1.0" "PyPI" ["python/requirements"])
    (sampleRecord "foo-bar-baz" "2.0" "PyPI" ["python/wheelegg"])
    (by decide) (by decide) (by decide)

/-- C5 (as amended): when the plugin list contains a member of the OS table and
no earlier element of the list belongs to the SBOM, Git or artifact table
(unless it belongs to the OS table as well), `SourceType` is OS-package,
whatever follows the OS member and whatever generic identities the list
contains. -/
theorem SourceType_os_first (E : Collaborators) (pkg : PackageInfo)
    (pre post : List String) (e : String)
    (hplugins : pkg.Package.Plugins = pre ++ e :: post)
    (he : e ∈ osExtractors E)
    (hpre : ∀ x ∈ pre, x ∈ osExtractors E ∨
      (x ∉ sbomExtractors E ∧ x ∉ gitExtractors E ∧ x ∉ artifactExtractors E)) :
    pkg.SourceType E = SourceType.SourceTypeOSPackage := by
  have hlen : ¬ pkg.Package.Plugins.length = 0 := by
    rw [hplugins]
    simp
  simp only [PackageInfo.SourceType]
  rw [if_neg hlen, hplugins]
  exact scanPlugins_os_first E pre post e he hpre

/-- C5 (as amended) at a plugin list with a generic identity before the OS member and SBOM and Git members after it. -/
theorem SourceType_os_first_witness :
    PackageInfo.SourceType sampleCollaborators
      ⟨sampleRecord "openssl" "3.0.11" "Debian:12"
        ["generic/plugin", "os/dpkg", "sbom/spdx", "vcs/gitrepo"], none⟩ =
      SourceType.SourceTypeOSPackage :=
  SourceType_os_first sampleCollaborators _ ["generic/plugin"] ["sbom/spdx", "vcs/gitrepo"]
    "os/dpkg" rfl (by decide) (by decide)

/-- C5 fails as stated: the plugin list below contains the OS-table member
`os/dpkg`, but the SBOM-table member `sbom/spdx` comes first in the list and
`SourceType` is SBOM. -/
theorem SourceType_os_member_counterexample :
    "os/dpkg" ∈ osExtractors sampleCollaborators ∧
      PackageInfo.SourceType sampleCollaborators
        ⟨sampleRecord "openssl" "3.0.11" "Debian:12" ["sbom/spdx", "os/dpkg"], none⟩ =
        SourceType.SourceTypeSBOM := by
  decide

/-- C6: for a record without cache whose ecosystem is Go and whose resolved
name is `stdlib`, if the version parser capped at 3 yields exactly the two
components `X` and `Y`, `Version` is the decimal rendering of `X`, a dot, the
decimal rendering of `Y`, and `.99`. -/
theorem Version_stdlib_two_components (E : Collaborators) (r : extractor.Package) (X Y : Int)
    (hGo : (PackageInfo.Ecosystem E ⟨r, none⟩).Ecosystem = osvschema.EcosystemGo)
    (hName : PackageInfo.Name E ⟨r, none⟩ = "stdlib")
    (hParse : (E.ParseSemverLikeVersion r.Version 3).Components = [X, Y]) :
    PackageInfo.Version E ⟨r, none⟩ = toString X ++ "." ++ toString Y ++ ".99" := by
  simp only [PackageInfo.Version]
  rw [if_pos ⟨hGo, hName⟩, hParse]
  simp only [List.length_cons, List.length_nil, if_true, semverlike.Components.Fetch]
  have h99 : toString (99 : Int) = "99" := by decide
  rw [h99, String.append_assoc _ "." "99"]
  rfl

/-- C6 at the Go record `go` with version `1.20`. -/
theorem Version_stdlib_two_components_witness :
    PackageInfo.Version sampleCollaborators
      ⟨sampleRecord "go" "1.20" "Go" ["go/gomod"], none⟩ =
      toString (1 : Int) ++ "." ++ toString (20 : Int) ++ ".99" :=
  Version_stdlib_two_components sampleCollaborators (sampleRecord "go" "1.20" "Go" ["go/gomod"])
    1 20 (by decide) (by decide) (by decide)

/-- C8: for a record without cache, if the ecosystem is not Go, or the resolved
name is not `stdlib`, or the version parser capped at 3 yields a number of
components other than two, `Version` is the raw version unchanged. -/
theorem Version_unchanged (E : Collaborators) (r : extractor.Package)
    (h : (PackageInfo.Ecosystem E ⟨r, none⟩).Ecosystem ≠ osvschema.EcosystemGo ∨
      PackageInfo.Name E ⟨r, none⟩ ≠ "stdlib" ∨
      (E.ParseSemverLikeVersion r.Version 3).Components.length ≠ 2) :
    PackageInfo.Version E ⟨r, none⟩ = r.Version := by
  simp only [PackageInfo.Version]
  by_cases hc : (PackageInfo.Ecosystem E ⟨r, none⟩).Ecosystem = osvschema.EcosystemGo ∧
      PackageInfo.Name E ⟨r, none⟩ = "stdlib"
  · rw [if_pos hc]
    rcases h with h | h | h
    · exact absurd hc.1 h
    · exact absurd hc.2 h
    · simp only [if_neg h]
  · rw [if_neg hc]

/-- C8 at the Go record `go` with the three-component version `1.21.3`. -/
theorem Version_unchanged_witness :
    PackageInfo.Version sampleCollaborators
      ⟨sampleRecord "go" "1.21.3" "Go" ["go/gomod"], none⟩ = "1.21.3" :=
  Version_unchanged sampleCollaborators (sampleRecord "go" "1.21.3" "Go" ["go/gomod"])
    (Or.inr (Or.inr (by decide)))

/-- C9: for a record without cache whose ecosystem is Go and whose raw name is
`go`, `Name` is `stdlib`, for every version, metadata payload, plugin list and
location list. -/
theorem Name_go_stdlib (E : Collaborators) (r : extractor.Package)
    (hGo : (PackageInfo.Ecosystem E ⟨r, none⟩).Ecosystem = osvschema.EcosystemGo)
    (hName : r.Name = "go") :
    PackageInfo.Name E ⟨r, none⟩ = "stdlib" := by
  simp only [PackageInfo.Name]
  rw [if_pos ⟨hGo, hName⟩]

/-- C9 at a Go record named `go` that carries Debian metadata and a location. -/
theorem Name_go_stdlib_witness :
    PackageInfo.Name sampleCollaborators
      ⟨{ Name := "go", Version := "1.22.1", Ecosystem := "Go", Locations := ["/src/go.mod"],
         SourceCode := none, Metadata := .dpkg "golang-go" "golang-defaults",
         Plugins := ["go/gomod"] }, none⟩ = "stdlib" :=
  Name_go_stdlib sampleCollaborators _ (by decide) rfl

/-- C10: the resolver built by `FromInventory` wraps the input record
unchanged; it has a cached identity only if the record is classified as SBOM
and a package-url is derivable from it; for a record classified as anything
else it has no cache. -/
theorem FromInventory_cache_only_sbom (E : Collaborators) (r : extractor.Package) :
    (FromInventory E r).Package = r ∧
      ((FromInventory E r).purlCache ≠ none →
        PackageInfo.SourceType E ⟨r, none⟩ = SourceType.SourceTypeSBOM ∧ E.ToPURL r ≠ none) ∧
      (PackageInfo.SourceType E ⟨r, none⟩ ≠ SourceType.SourceTypeSBOM →
        FromInventory E r = ⟨r, none⟩) := by
  simp only [FromInventory]
  by_cases hS : PackageInfo.SourceType E ⟨r, none⟩ = SourceType.SourceTypeSBOM
  · rw [if_pos hS]
    cases hP : E.ToPURL r with
    | none => simp
    | some purl => simp [hS]
  · rw [if_neg hS]
    simp [hS]

/-- C10 at an SBOM record, which gets a cache, and at an OS record, which gets none. -/
theorem FromInventory_cache_only_sbom_witness :
    (FromInventory sampleCollaborators
        (sampleRecord "Foo_Bar" "1.0" "PyPI" ["sbom/spdx"])).purlCache ≠ none ∧
      PackageInfo.SourceType sampleCollaborators
        ⟨sampleRecord "Foo_Bar" "1.0" "PyPI" ["sbom/spdx"], none⟩ = SourceType.SourceTypeSBOM ∧
      sampleCollaborators.ToPURL (sampleRecord "Foo_Bar" "1.0" "PyPI" ["sbom/spdx"]) ≠ none ∧
      FromInventory sampleCollaborators (sampleRecord "openssl" "3.0.11" "Debian:12" ["os/dpkg"]) =
        ⟨sampleRecord "openssl" "3.0.11" "Debian:12" ["os/dpkg"], none⟩ :=
  have h₁ := (FromInventory_cache_only_sbom sampleCollaborators
    (sampleRecord "Foo_Bar" "1.0" "PyPI" ["sbom/spdx"])).2.1 (by decide)
  have h₂ := (FromInventory_cache_only_sbom sampleCollaborators
    (sampleRecord "openssl" "3.0.11" "Debian:12" ["os/dpkg"])).2.2 (by decide)
  ⟨by decide, h₁.1, h₁.2, h₂⟩

/-- Whether `Version` keeps a Go toolchain version with a non-numeric suffix
depends on the version parser, which lies outside `imodels.go`: with a parser
that reads the leading numeric components, `1.21rc1` becomes `1.21.99`; with a
parser that yields no components for such input it stays `1.21rc1`. -/
theorem Version_suffix_parser_dependent :
    PackageInfo.Version sampleCollaborators
        ⟨sampleRecord "go" "1.21rc1" "Go" ["go/gomod"], none⟩ = "1.21.99" ∧
      PackageInfo.Version
        { sampleCollaborators with ParseSemverLikeVersion := fun _ _ => { Components := [] } }
        ⟨sampleRecord "go" "1.21rc1" "Go" ["go/gomod"], none⟩ = "1.21rc1" := by
  decide

/-! ## Provenance classification -/

/-- The loop of `SourceType` skips plugins that belong to no table. -/
theorem scanPlugins_skip (E : Collaborators) (pre rest : List String)
    (hpre : ∀ x ∈ pre, x ∉ osExtractors E ∧ x ∉ sbomExtractors E ∧
      x ∉ gitExtractors E ∧ x ∉ artifactExtractors E) :
    scanPlugins E (pre ++ rest) = scanPlugins E rest := by
  induction pre with
  | nil => rfl
  | cons x xs ih =>
    obtain ⟨h1, h2, h3, h4⟩ := hpre x (List.mem_cons_self x xs)
    simp only [List.cons_append, scanPlugins, if_neg h1, if_neg h2, if_neg h3, if_neg h4]
    exact ih (fun y hy => hpre y (List.mem_cons_of_mem x hy))

/-- The loop of `SourceType` never yields the value "unknown". -/
theorem scanPlugins_ne_unknown (E : Collaborators) (l : List String) :
    scanPlugins E l ≠ SourceType.SourceTypeUnknown := by
  induction l with
  | nil => simp [scanPlugins]
  | cons x xs ih =>
    unfold scanPlugins
    split_ifs <;> first | exact ih | simp

/-- Removing from the list a plugin that belongs to no table does not change
the result of the loop. -/
theorem scanPlugins_remove_generic (E : Collaborators) (xs ys : List String) (g : String)
    (hg : g ∉ osExtractors E ∧ g ∉ sbomExtractors E ∧
      g ∉ gitExtractors E ∧ g ∉ artifactExtractors E) :
    scanPlugins E (xs ++ g :: ys) = scanPlugins E (xs ++ ys) := by
  induction xs with
  | nil =>
    obtain ⟨h1, h2, h3, h4⟩ := hg
    simp only [List.nil_append, scanPlugins, if_neg h1, if_neg h2, if_neg h3, if_neg h4]
  | cons x xs ih =>
    rw [List.cons_append, List.cons_append, scanPlugins, scanPlugins, ih]

/-- C11: with an empty plugin list `SourceType` is "unknown"; "unknown" is
returned only for an empty plugin list; and "unknown" differs from each of the
five categories. -/
theorem SourceType_unknown_iff_empty (E : Collaborators) (pkg : PackageInfo) :
    (pkg.Package.Plugins = [] → pkg.SourceType E = SourceType.SourceTypeUnknown) ∧
      (pkg.SourceType E = SourceType.SourceTypeUnknown → pkg.Package.Plugins = []) ∧
      SourceType.SourceTypeUnknown ≠ SourceType.SourceTypeOSPackage ∧
      SourceType.SourceTypeUnknown ≠ SourceType.SourceTypeSBOM ∧
      SourceType.SourceTypeUnknown ≠ SourceType.SourceTypeGit ∧
      SourceType.SourceTypeUnknown ≠ SourceType.SourceTypeArtifact ∧
      SourceType.SourceTypeUnknown ≠ SourceType.SourceTypeProjectPackage := by
  refine ⟨fun h => ?_, fun h => ?_, by decide, by decide, by decide, by decide, by decide⟩
  · simp [PackageInfo.SourceType, h]
  · by_contra hne
    have hlen : ¬ pkg.Package.Plugins.length = 0 := fun h0 => hne (List.length_eq_zero.mp h0)
    simp only [PackageInfo.SourceType, if_neg hlen] at h
    exact scanPlugins_ne_unknown E _ h

/-- C11 at a record without plugins, and read backwards at the same record. -/
theorem SourceType_unknown_iff_empty_witness :
    PackageInfo.SourceType sampleCollaborators
        ⟨sampleRecord "left-pad" "1.3.0" "npm" [], none⟩ = SourceType.SourceTypeUnknown ∧
      (sampleRecord "left-pad" "1.3.0" "npm" []).Plugins = [] :=
  ⟨(SourceType_unknown_iff_empty sampleCollaborators
      ⟨sampleRecord "left-pad" "1.3.0" "npm" [], none⟩).1 rfl,
    (SourceType_unknown_iff_empty sampleCollaborators
      ⟨sampleRecord "left-pad" "1.3.0" "npm" [], none⟩).2.1 (by decide)⟩

/-- C12: `SourceType` is a function of the plugin list alone, for every list:
two records with the same plugins have the same `SourceType`; and for a
non-empty list none of whose members is in the OS, SBOM, Git or artifact table
it is project-manifest. -/
theorem SourceType_default_project (E : Collaborators) (pkg : PackageInfo) :
    (∀ other : PackageInfo, other.Package.Plugins = pkg.Package.Plugins →
        other.SourceType E = pkg.SourceType E) ∧
      (pkg.Package.Plugins ≠ [] →
        (∀ x ∈ pkg.Package.Plugins, x ∉ osExtractors E ∧ x ∉ sbomExtractors E ∧
          x ∉ gitExtractors E ∧ x ∉ artifactExtractors E) →
        pkg.SourceType E = SourceType.SourceTypeProjectPackage) := by
  constructor
  · intro other h
    simp only [PackageInfo.SourceType, h]
  · intro hne hnone
    have hlen : ¬ pkg.Package.Plugins.length = 0 := fun h0 => hne (List.length_eq_zero.mp h0)
    simp only [PackageInfo.SourceType, if_neg hlen]
    have h := scanPlugins_skip E pkg.Package.Plugins [] hnone
    rw [List.append_nil] at h
    rw [h]
    rfl

/-- C12 at a plugin list whose members differ from table members in case only,
and at two records of different name, version, metadata and cache that share a
plugin list with an OS member. -/
theorem SourceType_default_project_witness :
    PackageInfo.SourceType sampleCollaborators
        ⟨sampleRecord "left-pad" "1.3.0" "npm" ["OS/DPKG", "Sbom/spdx"], none⟩ =
        SourceType.SourceTypeProjectPackage ∧
      PackageInfo.SourceType sampleCollaborators
        ⟨{ sampleRecord "openssl" "3.0.11" "Debian:12" ["x", "os/dpkg"] with
            Metadata := .dpkg "libssl3" "openssl" }, some ⟨"a", "b", "c"⟩⟩ =
        PackageInfo.SourceType sampleCollaborators
          ⟨sampleRecord "left-pad" "1.3.0" "npm" ["x", "os/dpkg"], none⟩ :=
  ⟨(SourceType_default_project sampleCollaborators
      ⟨sampleRecord "left-pad" "1.3.0" "npm" ["OS/DPKG", "Sbom/spdx"], none⟩).2
      (by decide) (by decide),
    (SourceType_default_project sampleCollaborators
      ⟨sampleRecord "left-pad" "1.3.0" "npm" ["x", "os/dpkg"], none⟩).1 _ rfl⟩

/-- C18: when no plugin before `e` belongs to a table and `e` belongs to one,
`SourceType` is the category of the table of `e` (OS before SBOM before Git
before artifact), whatever follows `e`. -/
theorem SourceType_first_member (E : Collaborators) (pkg : PackageInfo)
    (pre post : List String) (e : String)
    (hplugins : pkg.Package.Plugins = pre ++ [e] ++ post)
    (hpre : ∀ x ∈ pre, x ∉ osExtractors E ∧ x ∉ sbomExtractors E ∧
      x ∉ gitExtractors E ∧ x ∉ artifactExtractors E)
    (he : e ∈ osExtractors E ∨ e ∈ sbomExtractors E ∨ e ∈ gitExtractors E ∨
      e ∈ artifactExtractors E) :
    pkg.SourceType E =
      if e ∈ osExtractors E then SourceType.SourceTypeOSPackage
      else if e ∈ sbomExtractors E then SourceType.SourceTypeSBOM
      else if e ∈ gitExtractors E then SourceType.SourceTypeGit
      else SourceType.SourceTypeArtifact := by
  have hlen : ¬ pkg.Package.Plugins.length = 0 := by
    rw [hplugins]
    simp
  simp only [PackageInfo.SourceType]
  rw [if_neg hlen, hplugins, List.append_assoc, List.singleton_append,
    scanPlugins_skip E pre (e :: post) hpre]
  unfold scanPlugins
  by_cases h1 : e ∈ osExtractors E
  · simp only [if_pos h1]
  · by_cases h2 : e ∈ sbomExtractors E
    · simp only [if_neg h1, if_pos h2]
    · by_cases h3 : e ∈ gitExtractors E
      · simp only [if_neg h1, if_neg h2, if_pos h3]
      · have h4 : e ∈ artifactExtractors E := by
          rcases he with h | h | h | h
          · exact absurd h h1
          · exact absurd h h2
          · exact absurd h h3
          · exact h
        simp only [if_neg h1, if_neg h2, if_neg h3, if_pos h4]

/-- C18 at a list with two generic plugins before the Git member and OS and
SBOM members after it. -/
theorem SourceType_first_member_witness :
    PackageInfo.SourceType sampleCollaborators
        ⟨sampleRecord "repo" "" "" ["a", "b", "vcs/gitrepo", "os/dpkg", "sbom/cdx"], none⟩ =
      if "vcs/gitrepo" ∈ osExtractors sampleCollaborators then SourceType.SourceTypeOSPackage
      else if "vcs/gitrepo" ∈ sbomExtractors sampleCollaborators then SourceType.SourceTypeSBOM
      else if "vcs/gitrepo" ∈ gitExtractors sampleCollaborators then SourceType.SourceTypeGit
      else SourceType.SourceTypeArtifact :=
  SourceType_first_member sampleCollaborators _ ["a", "b"] ["os/dpkg", "sbom/cdx"]
    "vcs/gitrepo" rfl (by decide) (by decide)

/-- C19: a plugin that belongs to no table does not influence
`SourceType` of a record that has other plugins as well. -/
theorem SourceType_generic_irrelevant (E : Collaborators) (pkg₁ pkg₂ : PackageInfo)
    (xs ys : List String) (g : String)
    (h₁ : pkg₁.Package.Plugins = xs ++ [g] ++ ys)
    (h₂ : pkg₂.Package.Plugins = xs ++ ys)
    (hne : xs ++ ys ≠ [])
    (hg : g ∉ osExtractors E ∧ g ∉ sbomExtractors E ∧
      g ∉ gitExtractors E ∧ g ∉ artifactExtractors E) :
    pkg₁.SourceType E = pkg₂.SourceType E := by
  have hlen₁ : ¬ pkg₁.Package.Plugins.length = 0 := by
    rw [h₁]
    simp
  have hlen₂ : ¬ pkg₂.Package.Plugins.length = 0 := by
    rw [h₂]
    exact fun h0 => hne (List.length_eq_zero.mp h0)
  simp only [PackageInfo.SourceType]
  rw [if_neg hlen₁, if_neg hlen₂, h₁, h₂, List.append_assoc, List.singleton_append]
  exact scanPlugins_remove_generic E xs ys g hg

/-- C19 at the lists `[x, os/apk]` with and without a generic plugin between. -/
theorem SourceType_generic_irrelevant_witness :
    PackageInfo.SourceType sampleCollaborators
        ⟨sampleRecord "musl" "1.2.4" "Alpine:v3.19" ["x", "generic", "os/apk"], none⟩ =
      PackageInfo.SourceType sampleCollaborators
        ⟨sampleRecord "musl" "1.2.4" "Alpine:v3.19" ["x", "os/apk"], none⟩ :=
  SourceType_generic_irrelevant sampleCollaborators _ _ ["x"] ["os/apk"] "generic"
    rfl rfl (by decide) (by decide)

/-! ## Dependency groups, OS package names and the metadata name rules -/

/-- C13 (as amended): for a record with an empty plugin list whose metadata
payload does not expose the dependency-group capability, or exposes one that
returns an empty non-nil list, `DepGroups` is an empty, non-nil list (and
`SourceType` is "unknown"). -/
theorem DepGroups_empty_plugins (E : Collaborators) (pkg : PackageInfo)
    (hplugins : pkg.Package.Plugins = [])
    (hcap : ∀ groups, pkg.Package.Metadata = .depGroups groups → groups = some []) :
    pkg.SourceType E = SourceType.SourceTypeUnknown ∧ pkg.DepGroups = some [] := by
  constructor
  · simp [PackageInfo.SourceType, hplugins]
  · unfold PackageInfo.DepGroups
    split
    · rename_i groups h
      exact hcap groups h
    · rfl

/-- C13 (as amended) at a record without plugins whose payload has the
capability and returns an empty non-nil list. -/
theorem DepGroups_empty_plugins_witness :
    PackageInfo.SourceType sampleCollaborators
        ⟨{ sampleRecord "left-pad" "1.3.0" "npm" [] with Metadata := .depGroups (some []) },
          none⟩ = SourceType.SourceTypeUnknown ∧
      PackageInfo.DepGroups
        ⟨{ sampleRecord "left-pad" "1.3.0" "npm" [] with Metadata := .depGroups (some []) },
          none⟩ = some [] :=
  DepGroups_empty_plugins sampleCollaborators
    ⟨{ sampleRecord "left-pad" "1.3.0" "npm" [] with Metadata := .depGroups (some []) }, none⟩
    rfl (by simp)

/-- C13 fails as stated: the record below has an empty plugin list and a
metadata payload whose dependency-group capability returns `["dev"]`;
`DepGroups` returns that list, which is not empty. -/
theorem DepGroups_empty_plugins_counterexample :
    ({ sampleRecord "jest" "29.7.0" "npm" [] with
        Metadata := .depGroups (some ["dev"]) } : extractor.Package).Plugins = [] ∧
      PackageInfo.DepGroups
        ⟨{ sampleRecord "jest" "29.7.0" "npm" [] with Metadata := .depGroups (some ["dev"]) },
          none⟩ = some ["dev"] := by
  decide

/-- C14 (as amended): `DepGroups` is the list returned by the dependency-group
capability of the metadata payload, as it is, when the payload exposes that
capability, and an empty non-nil list otherwise; it is nil exactly when the
capability returns nil. -/
theorem DepGroups_passes_capability (pkg : PackageInfo) :
    (∀ groups, pkg.Package.Metadata = .depGroups groups → pkg.DepGroups = groups) ∧
      ((∀ groups, pkg.Package.Metadata ≠ .depGroups groups) → pkg.DepGroups = some []) ∧
      (pkg.DepGroups = none ↔ pkg.Package.Metadata = .depGroups none) := by
  unfold PackageInfo.DepGroups
  cases hM : pkg.Package.Metadata <;> simp

/-- C14 (as amended) at a payload whose capability returns `["dev", "test"]`
and at a Debian payload, which has no such capability. -/
theorem DepGroups_passes_capability_witness :
    PackageInfo.DepGroups
        ⟨{ sampleRecord "jest" "29.7.0" "npm" ["javascript/packagelockjson"] with
            Metadata := .depGroups (some ["dev", "test"]) }, none⟩ = some ["dev", "test"] ∧
      PackageInfo.DepGroups
        ⟨{ sampleRecord "openssl" "3.0.11" "Debian:12" ["os/dpkg"] with
            Metadata := .dpkg "libssl3" "openssl" }, none⟩ = some [] :=
  ⟨(DepGroups_passes_capability _).1 _ rfl,
    (DepGroups_passes_capability
      ⟨{ sampleRecord "openssl" "3.0.11" "Debian:12" ["os/dpkg"] with
          Metadata := .dpkg "libssl3" "openssl" }, none⟩).2.1 (by simp)⟩

/-- C14 fails as stated: the metadata payload below exposes the
dependency-group capability and the capability returns nil; `DepGroups`
returns nil. -/
theorem DepGroups_nil_counterexample :
    PackageInfo.DepGroups
      ⟨{ sampleRecord "lodash" "4.17.21" "npm" ["javascript/packagelockjson"] with
          Metadata := .depGroups none }, none⟩ = none := by
  decide

/-- The metadata rules of `Name`, reached when neither the Go self-reference
rule nor the PyPI rule applies. -/
theorem Name_of_metadata (E : Collaborators) (r : extractor.Package)
    (hGo : ¬ ((PackageInfo.Ecosystem E ⟨r, none⟩).Ecosystem = osvschema.EcosystemGo ∧
      r.Name = "go"))
    (hPyPI : (PackageInfo.Ecosystem E ⟨r, none⟩).Ecosystem ≠ osvschema.EcosystemPyPI) :
    PackageInfo.Name E ⟨r, none⟩ =
      match r.Metadata with
      | .archive ArtifactID GroupID =>
        if ArtifactID ≠ "" ∧ GroupID ≠ "" then GroupID ++ ":" ++ ArtifactID else r.Name
      | .dpkg _ SourceName => if SourceName ≠ "" then SourceName else r.Name
      | .apk _ OriginName => if OriginName ≠ "" then OriginName else r.Name
      | _ => r.Name := by
  simp only [PackageInfo.Name]
  rw [if_neg hGo, if_neg hPyPI]

/-- C15: when neither the Go self-reference rule nor the PyPI rule applies,
`Name` of a record without cache is the source name of Debian-style metadata
when that is non-empty, the origin name of Alpine-style metadata when that is
non-empty, and the raw name when the source or origin name is empty. -/
theorem Name_os_source_origin (E : Collaborators) (r : extractor.Package)
    (hGo : ¬ ((PackageInfo.Ecosystem E ⟨r, none⟩).Ecosystem = osvschema.EcosystemGo ∧
      r.Name = "go"))
    (hPyPI : (PackageInfo.Ecosystem E ⟨r, none⟩).Ecosystem ≠ osvschema.EcosystemPyPI) :
    (∀ PackageName SourceName, r.Metadata = .dpkg PackageName SourceName → SourceName ≠ "" →
        PackageInfo.Name E ⟨r, none⟩ = SourceName) ∧
      (∀ PackageName OriginName, r.Metadata = .apk PackageName OriginName → OriginName ≠ "" →
        PackageInfo.Name E ⟨r, none⟩ = OriginName) ∧
      (∀ PackageName, r.Metadata = .dpkg PackageName "" →
        PackageInfo.Name E ⟨r, none⟩ = r.Name) ∧
      (∀ PackageName, r.Metadata = .apk PackageName "" →
        PackageInfo.Name E ⟨r, none⟩ = r.Name) := by
  rw [Name_of_metadata E r hGo hPyPI]
  refine ⟨fun p s hM hs => ?_, fun p o hM ho => ?_, fun p hM => ?_, fun p hM => ?_⟩
  · rw [hM]; simp only [if_pos hs]
  · rw [hM]; simp only [if_pos ho]
  · rw [hM]; simp
  · rw [hM]; simp

/-- C15 at the record named `openssl` of ecosystem Debian with source name
`openssl1.1`. -/
theorem Name_os_source_origin_witness :
    PackageInfo.Name sampleCollaborators
      ⟨{ sampleRecord "openssl" "1.1.1n" "Debian" ["os/dpkg"] with
          Metadata := .dpkg "openssl" "openssl1.1" }, none⟩ = "openssl1.1" :=
  (Name_os_source_origin sampleCollaborators
    { sampleRecord "openssl" "1.1.1n" "Debian" ["os/dpkg"] with
      Metadata := .dpkg "openssl" "openssl1.1" }
    (by decide) (by decide)).1 "openssl" "openssl1.1" rfl (by decide)

/-- C16: when neither the Go self-reference rule nor the PyPI rule applies,
`Name` of a record without cache whose metadata carries a Maven group and
artifact identifier is group, colon, artifact when both are non-empty, and the
raw name when either is empty. -/
theorem Name_maven_group_artifact (E : Collaborators) (r : extractor.Package)
    (hGo : ¬ ((PackageInfo.Ecosystem E ⟨r, none⟩).Ecosystem = osvschema.EcosystemGo ∧
      r.Name = "go"))
    (hPyPI : (PackageInfo.Ecosystem E ⟨r, none⟩).Ecosystem ≠ osvschema.EcosystemPyPI) :
    (∀ ArtifactID GroupID, r.Metadata = .archive ArtifactID GroupID →
        GroupID ≠ "" → ArtifactID ≠ "" →
        PackageInfo.Name E ⟨r, none⟩ = GroupID ++ ":" ++ ArtifactID) ∧
      (∀ ArtifactID GroupID, r.Metadata = .archive ArtifactID GroupID →
        GroupID = "" ∨ ArtifactID = "" →
        PackageInfo.Name E ⟨r, none⟩ = r.Name) := by
  rw [Name_of_metadata E r hGo hPyPI]
  refine ⟨fun a g hM hg ha => ?_, fun a g hM hempty => ?_⟩
  · rw [hM]; simp only [if_pos (And.intro ha hg)]
  · have hne : ¬ (a ≠ "" ∧ g ≠ "") := by
      rintro ⟨ha, hg⟩
      rcases hempty with h | h
      · exact hg h
      · exact ha h
    rw [hM]; simp only [if_neg hne]

/-- C16 at the record named `com.example:mylib` with group `com.example` and
artifact `mylib`. -/
theorem Name_maven_group_artifact_witness :
    PackageInfo.Name sampleCollaborators
      ⟨{ sampleRecord "com.example:mylib" "1.0.0" "Maven" ["java/archive"] with
          Metadata := .archive "mylib" "com.example" }, none⟩ = "com.example:mylib" :=
  ((Name_maven_group_artifact sampleCollaborators
    { sampleRecord "com.example:mylib" "1.0.0" "Maven" ["java/archive"] with
      Metadata := .archive "mylib" "com.example" }
    (by decide) (by decide)).1 "mylib" "com.example" rfl (by decide) (by decide)).trans
    (by decide)

/-- C17 (as amended): `OSPackageName` is the binary package name carried by
Alpine, Debian or RPM metadata, and the empty string for a record whose
metadata has none of these three shapes. -/
theorem OSPackageName_of_metadata (pkg : PackageInfo) :
    (∀ PackageName OriginName, pkg.Package.Metadata = .apk PackageName OriginName →
        pkg.OSPackageName = PackageName) ∧
      (∀ PackageName SourceName, pkg.Package.Metadata = .dpkg PackageName SourceName →
        pkg.OSPackageName = PackageName) ∧
      (∀ PackageName, pkg.Package.Metadata = .rpm PackageName →
        pkg.OSPackageName = PackageName) ∧
      ((∀ PackageName OriginName, pkg.Package.Metadata ≠ .apk PackageName OriginName) →
        (∀ PackageName SourceName, pkg.Package.Metadata ≠ .dpkg PackageName SourceName) →
        (∀ PackageName, pkg.Package.Metadata ≠ .rpm PackageName) →
        pkg.OSPackageName = "") := by
  unfold PackageInfo.OSPackageName
  cases hM : pkg.Package.Metadata <;> simp

/-- C17 (as amended) at a Debian payload and at a Maven payload. -/
theorem OSPackageName_of_metadata_witness :
    PackageInfo.OSPackageName
        ⟨{ sampleRecord "openssl" "3.0.11" "Debian:12" ["os/dpkg"] with
            Metadata := .dpkg "libssl3" "openssl" }, none⟩ = "libssl3" ∧
      PackageInfo.OSPackageName
        ⟨{ sampleRecord "com.example:mylib" "1.0.0" "Maven" ["java/archive"] with
            Metadata := .archive "mylib" "com.example" }, none⟩ = "" :=
  ⟨(OSPackageName_of_metadata _).2.1 "libssl3" "openssl" rfl,
    (OSPackageName_of_metadata
      ⟨{ sampleRecord "com.example:mylib" "1.0.0" "Maven" ["java/archive"] with
          Metadata := .archive "mylib" "com.example" }, none⟩).2.2.2
      (by simp) (by simp) (by simp)⟩

/-- C17 fails as stated: the record below carries Debian metadata and its
plugin list starts with an SBOM plugin, so `SourceType` is SBOM, not
OS-package, and `OSPackageName` is still the binary package name `libssl3`,
not the empty string. -/
theorem OSPackageName_not_os_counterexample :
    PackageInfo.SourceType sampleCollaborators
        ⟨{ sampleRecord "openssl" "3.0.11" "Debian:12" ["sbom/spdx", "os/dpkg"] with
            Metadata := .dpkg "libssl3" "openssl" }, none⟩ ≠ SourceType.SourceTypeOSPackage ∧
      PackageInfo.OSPackageName
        ⟨{ sampleRecord "openssl" "3.0.11" "Debian:12" ["sbom/spdx", "os/dpkg"] with
            Metadata := .dpkg "libssl3" "openssl" }, none⟩ = "libssl3" := by
  decide

/-- The PyPI normalisation of a non-empty name is not empty. -/
theorem normalizePyPIName_ne_empty (name : String) (h : name ≠ "") :
    normalizePyPIName name ≠ "" := by
  have hdata : name.data ≠ [] := fun h0 => h (String.ext h0)
  intro hn
  have hd : (normalizePyPIName name).data = [] := by rw [hn]
  simp only [normalizePyPIName, strings.ToLower, List.map_eq_nil_iff] at hd
  cases hl : name.data with
  | nil => exact hdata hl
  | cons c cs =>
    rw [hl] at hd
    unfold replaceSeparatorRuns at hd
    by_cases hc : isSeparator c = true
    · rw [if_pos hc] at hd
      simp at hd
    · rw [if_neg hc] at hd
      simp at hd

/-- C20: for a record without cache and with a non-empty raw name, `Name` is
not empty, whatever the ecosystem and the metadata payload; with a cached
identity whose name is empty, `Name` is empty. -/
theorem Name_nonempty (E : Collaborators) (r : extractor.Package) (h : r.Name ≠ "") :
    PackageInfo.Name E ⟨r, none⟩ ≠ "" ∧
      PackageInfo.Name E ⟨r, some ⟨"", r.Version, r.Ecosystem⟩⟩ = "" := by
  refine ⟨?_, rfl⟩
  by_cases hGo : (PackageInfo.Ecosystem E ⟨r, none⟩).Ecosystem = osvschema.EcosystemGo ∧
      r.Name = "go"
  · simp only [PackageInfo.Name, if_pos hGo]
    decide
  · by_cases hPyPI : (PackageInfo.Ecosystem E ⟨r, none⟩).Ecosystem = osvschema.EcosystemPyPI
    · simp only [PackageInfo.Name, if_neg hGo, if_pos hPyPI]
      exact normalizePyPIName_ne_empty r.Name h
    · rw [Name_of_metadata E r hGo hPyPI]
      cases hM : r.Metadata with
      | archive a g =>
        simp only
        split_ifs with hag
        · intro h0
          have hd := congrArg String.length h0
          simp only [String.length_append] at hd
          have h1 : (":" : String).length = 1 := by decide
          have h2 : ("" : String).length = 0 := by decide
          omega
        · exact h
      | dpkg p s =>
        simp only
        split_ifs with hs
        · exact hs
        · exact h
      | apk p o =>
        simp only
        split_ifs with ho
        · exact ho
        · exact h
      | absent => exact h
      | rpm p => exact h
      | depGroups g => exact h
      | sbom p => exact h
      | other => exact h

/-- C20 at a PyPI record whose name consists of separators only. -/
theorem Name_nonempty_witness :
    PackageInfo.Name sampleCollaborators
        ⟨sampleRecord "._-" "1.0" "PyPI" ["python/wheelegg"], none⟩ ≠ "" ∧
      PackageInfo.Name sampleCollaborators
        ⟨sampleRecord "._-" "1.0" "PyPI" ["python/wheelegg"],
          some ⟨"", (sampleRecord "._-" "1.0" "PyPI" ["python/wheelegg"]).Version,
            (sampleRecord "._-" "1.0" "PyPI" ["python/wheelegg"]).Ecosystem⟩⟩ = "" :=
  Name_nonempty sampleCollaborators (sampleRecord "._-" "1.0" "PyPI" ["python/wheelegg"])
    (by decide)

end imodels
